import Mathlib

/-!
Verification of `keras_takePictures_detect_signs_move2.py`, a ROS script with
two nodes: `ImageClassifierNode` (classifies camera frames and publishes a
label) and `SignalBehaviorNode` (a 10 Hz control loop mapping the latest label
to a velocity command).  The Python is shallowly embedded: the mutable node
attributes become a state record, the ROS callbacks and the motion-loop tick
become state-transition functions, and the float velocity literals (0.0, 0.2,
0.5, -0.5), which the script only ever assigns and never computes with, are
represented exactly as rationals.
-/

namespace SignsMove

/-- `geometry_msgs/Twist` restricted to the two fields the script sets:
`twist.linear.x` and `twist.angular.z`. -/
structure Twist where
  linear_x : Rat
  angular_z : Rat
deriving DecidableEq, Repr

/-- The label→velocity decision of `SignalBehaviorNode.motion_loop`
(lines 119-138): the if/elif chain on the command string read from
`self.current_command`, with the final `else` branch as catch-all. -/
def motionMapping (cmd : String) : Twist :=
  if cmd = "Stop" ∨ cmd = "Give_Way" then ⟨0.0, 0.0⟩
  else if cmd = "Turn_Left" then ⟨0.0, 0.5⟩
  else if cmd = "Turn_Right" then ⟨0.0, -0.5⟩
  else if cmd = "Nothing" then ⟨0.2, 0.0⟩
  else ⟨0.0, 0.0⟩

/-- `self.debug_interval = 10` in `ImageClassifierNode.__init__` (line 42). -/
def debug_interval : Nat := 10

/-- The mutable attributes of the two node objects that the callbacks touch.
`capture_enabled` and `image_count` live on `ImageClassifierNode`
(lines 34, 41); `robot_x`, `robot_y` and `current_command` live on
`SignalBehaviorNode` (lines 87-89). -/
structure SysState where
  capture_enabled : Bool
  image_count : Nat
  robot_x : Rat
  robot_y : Rat
  current_command : String
deriving DecidableEq, Repr

/-- The attribute values set in the two `__init__` methods:
`capture_enabled = True` (line 34), `image_count = 0` (line 41),
`robot_x = robot_y = 0.0` (lines 87-88), `current_command = "Nothing"`
(line 89). -/
def initState : SysState :=
  { capture_enabled := true
    image_count := 0
    robot_x := 0
    robot_y := 0
    current_command := "Nothing" }

/-- Outcome of decoding plus classifying one camera frame.  The classifier
(`self.model`) and decoder (`self.bridge`) are external: a frame either yields
a label (with a confidence, logged but otherwise unused), raises
`CvBridgeError` (line 77), or raises some other exception during
classification (line 79). -/
inductive FrameResult where
  | ok (label : String) (confidence : Rat)
  | decodeError
  | classifyError
deriving DecidableEq, Repr

/-- The external inputs the two nodes react to: a camera frame delivery
(`image_callback`), a `/capture_toggle` message (`toggle_callback`), an
`/odom` message (`odom_callback`), and one iteration of the 10 Hz
`motion_loop`.  A label published by `image_callback` on `/predicted_class`
is delivered to `class_callback` of the behavior node as part of the same
frame event. -/
inductive SEvent where
  | frame (fr : FrameResult)
  | toggle (b : Bool)
  | odom (x y : Rat)
  | tick
deriving DecidableEq, Repr

/-- Observable outputs: a label published on `/predicted_class`, a `Twist`
published on `/cmd_vel`, an error log (`rospy.logerr`), an informational log
(`rospy.loginfo` / `loginfo_throttle`), and the every-Nth-frame diagnostic
log of line 73, kept distinct so that its sampling can be stated. -/
inductive SOut where
  | label (s : String)
  | twist (t : Twist)
  | logErr
  | logInfo
  | logDebug
deriving DecidableEq, Repr

/-- One event handled.  Each branch is the body of the corresponding Python
callback:
* `frame` — `image_callback` (lines 59-80): `self.image_count += 1` first,
  then on success the sampled diagnostic (lines 72-73), the publish
  (line 75) whose delivery runs `class_callback` (lines 107-110: overwrite
  `current_command`, then `loginfo`); on either exception only a `logerr`.
* `toggle` — `toggle_callback` (lines 54-57): overwrite `capture_enabled`,
  `loginfo`.
* `odom` — `odom_callback` (lines 103-105): overwrite `robot_x`, `robot_y`.
* `tick` — one `motion_loop` iteration body (lines 115-141): copy
  `current_command` under the lock, branch (`motionMapping`) with a throttled
  `loginfo`, publish the twist. -/
def sysStep (st : SysState) : SEvent → SysState × List SOut
  | SEvent.frame fr =>
    let st1 := { st with image_count := st.image_count + 1 }
    match fr with
    | FrameResult.ok lab _conf =>
      let dbg := if st1.image_count % debug_interval = 0 then [SOut.logDebug] else []
      ({ st1 with current_command := lab },
        dbg ++ [SOut.label lab, SOut.logInfo])
    | FrameResult.decodeError => (st1, [SOut.logErr])
    | FrameResult.classifyError => (st1, [SOut.logErr])
  | SEvent.toggle b => ({ st with capture_enabled := b }, [SOut.logInfo])
  | SEvent.odom x y => ({ st with robot_x := x, robot_y := y }, [])
  | SEvent.tick =>
    (st, [SOut.twist (motionMapping st.current_command), SOut.logInfo])

/-- The concatenated outputs of handling a list of events in order. -/
def sysRun (st : SysState) : List SEvent → List SOut
  | [] => []
  | e :: es => (sysStep st e).2 ++ sysRun (sysStep st e).1 es

/-- The state after handling a list of events in order. -/
def sysRunState (st : SysState) : List SEvent → SysState
  | [] => st
  | e :: es => sysRunState (sysStep st e).1 es

/-- The labels published on `/predicted_class`, in order. -/
def labelStream (outs : List SOut) : List String :=
  outs.filterMap fun o => match o with | SOut.label s => some s | _ => none

/-- The velocity commands published on `/cmd_vel`, in order. -/
def twistStream (outs : List SOut) : List Twist :=
  outs.filterMap fun o => match o with | SOut.twist t => some t | _ => none

/-! ### Instruction-level view of the lock discipline and the loop shape

For the claims about what happens inside the `with self.command_lock:` blocks
and about the per-iteration structure of `motion_loop`, the relevant Python
statements are embedded as instruction sequences. -/

/-- The atomic actions appearing in `class_callback` and `motion_loop`:
lock acquire/release (entering/leaving a `with self.command_lock:` block),
the overwrite of `self.current_command`, the copy of `self.current_command`
into the local `cmd`, a logging call, the `/cmd_vel` publish, the
`rospy.is_shutdown()` check, and `rate.sleep()`. -/
inductive Instr where
  | acquireLock
  | releaseLock
  | assignValue
  | copyValue
  | logCall
  | publishCall
  | checkShutdown
  | sleepCall
deriving DecidableEq, Repr

/-- `SignalBehaviorNode.class_callback` (lines 107-110): the `with` block
acquires the lock, overwrites `self.current_command`, calls `rospy.loginfo`
(line 110, indented inside the `with` block), and releases on exit. -/
def class_callback_instrs : List Instr :=
  [Instr.acquireLock, Instr.assignValue, Instr.logCall, Instr.releaseLock]

/-- The read in `motion_loop` (lines 116-117): the `with` block acquires the
lock, copies `self.current_command` into `cmd`, and releases on exit. -/
def motion_loop_read_instrs : List Instr :=
  [Instr.acquireLock, Instr.copyValue, Instr.releaseLock]

/-- The instructions strictly between the first `acquireLock` and the next
`releaseLock`: the lock-held region of a `with self.command_lock:` block. -/
def criticalSection (l : List Instr) : List Instr :=
  (((l.dropWhile (fun i => !(i == Instr.acquireLock))).drop 1).takeWhile
    (fun i => !(i == Instr.releaseLock)))

/-- The body of one `motion_loop` iteration after the `while` condition
(lines 115-141): the locked copy, the branch's throttled `loginfo`, the
publish, and `rate.sleep()`.  (`twist = Twist()` and the field assignments
are pure local computation.) -/
def tickBody : List Instr :=
  motion_loop_read_instrs ++ [Instr.logCall, Instr.publishCall, Instr.sleepCall]

/-- `motion_loop` (lines 112-141) as an instruction trace, driven by the
sequence of values `rospy.is_shutdown()` returns at successive checks of the
`while` condition: each iteration first checks shutdown, then either stops
or runs `tickBody` and loops. -/
def motionLoopTrace : List Bool → List Instr
  | [] => []
  | sd :: rest =>
    Instr.checkShutdown :: (if sd then [] else tickBody ++ motionLoopTrace rest)

/-- `motion_loop` as a publish trace: `cmds k` is the value `motion_loop`
finds in `self.current_command` on its `k`-th iteration; each non-shutdown
check produces exactly the one command the if/elif chain computes from that
single copied value. -/
def motionLoopRun (cmds : Nat → String) : List Bool → Nat → List Twist
  | [], _ => []
  | sd :: rest, k =>
    if sd then [] else motionMapping (cmds k) :: motionLoopRun cmds rest (k + 1)

/-! ### Helper lemmas -/

theorem labelStream_append (a b : List SOut) :
    labelStream (a ++ b) = labelStream a ++ labelStream b := by
  simp [labelStream, List.filterMap_append]

theorem twistStream_append (a b : List SOut) :
    twistStream (a ++ b) = twistStream a ++ twistStream b := by
  simp [twistStream, List.filterMap_append]

theorem labelStream_dbg (c : Prop) [Decidable c] :
    labelStream (if c then [SOut.logDebug] else []) = [] := by
  split <;> simp [labelStream]

theorem twistStream_dbg (c : Prop) [Decidable c] :
    twistStream (if c then [SOut.logDebug] else []) = [] := by
  split <;> simp [twistStream]

/-- No handler reads `capture_enabled`, `image_count`, `robot_x` or
`robot_y` when deciding what to publish: the published label and twist
streams of a run are determined by the initial `current_command` and the
event list alone. -/
theorem run_streams_eq_of_command_eq (evs : List SEvent) :
    ∀ st₁ st₂ : SysState, st₁.current_command = st₂.current_command →
      labelStream (sysRun st₁ evs) = labelStream (sysRun st₂ evs) ∧
      twistStream (sysRun st₁ evs) = twistStream (sysRun st₂ evs) := by
  induction evs with
  | nil => intro st₁ st₂ _; simp [sysRun]
  | cons e es ih =>
    intro st₁ st₂ h
    cases e with
    | frame fr =>
      cases fr with
      | ok lab conf =>
        have hih := ih ((sysStep st₁ (SEvent.frame (FrameResult.ok lab conf))).1)
          ((sysStep st₂ (SEvent.frame (FrameResult.ok lab conf))).1) (by simp [sysStep])
        simp only [sysRun, sysStep, labelStream_append, twistStream_append,
          labelStream_dbg, twistStream_dbg] at hih ⊢
        constructor
        · simpa [labelStream, labelStream_append, labelStream_dbg] using hih.1
        · simpa [twistStream, twistStream_append, twistStream_dbg] using hih.2
      | decodeError =>
        have hih := ih ((sysStep st₁ (SEvent.frame FrameResult.decodeError)).1)
          ((sysStep st₂ (SEvent.frame FrameResult.decodeError)).1) (by simpa [sysStep] using h)
        simpa [sysRun, sysStep, labelStream_append, twistStream_append,
          labelStream, twistStream] using hih
      | classifyError =>
        have hih := ih ((sysStep st₁ (SEvent.frame FrameResult.classifyError)).1)
          ((sysStep st₂ (SEvent.frame FrameResult.classifyError)).1) (by simpa [sysStep] using h)
        simpa [sysRun, sysStep, labelStream_append, twistStream_append,
          labelStream, twistStream] using hih
    | toggle b =>
      have hih := ih ((sysStep st₁ (SEvent.toggle b)).1)
        ((sysStep st₂ (SEvent.toggle b)).1) (by simpa [sysStep] using h)
      simpa [sysRun, sysStep, labelStream_append, twistStream_append,
        labelStream, twistStream] using hih
    | odom x y =>
      have hih := ih ((sysStep st₁ (SEvent.odom x y)).1)
        ((sysStep st₂ (SEvent.odom x y)).1) (by simpa [sysStep] using h)
      simpa [sysRun, sysStep, labelStream_append, twistStream_append,
        labelStream, twistStream] using hih
    | tick =>
      have hih := ih ((sysStep st₁ SEvent.tick).1)
        ((sysStep st₂ SEvent.tick).1) (by simpa [sysStep] using h)
      simp only [sysRun, sysStep, labelStream_append, twistStream_append] at hih ⊢
      constructor
      · simpa [labelStream] using hih.1
      · simp only [h] at hih ⊢
        simpa [twistStream] using hih.2

/-- Recognizer for `/capture_toggle` deliveries. -/
def isToggleEvent : SEvent → Bool
  | SEvent.toggle _ => true
  | _ => false

/-- Recognizer for `/odom` deliveries. -/
def isOdomEvent : SEvent → Bool
  | SEvent.odom _ _ => true
  | _ => false

/-- Deleting every toggle event from a run changes neither published stream. -/
theorem run_streams_erase_toggle (evs : List SEvent) :
    ∀ st : SysState,
      labelStream (sysRun st evs) =
        labelStream (sysRun st (evs.filter (fun e => !isToggleEvent e))) ∧
      twistStream (sysRun st evs) =
        twistStream (sysRun st (evs.filter (fun e => !isToggleEvent e))) := by
  induction evs with
  | nil => intro st; simp
  | cons e es ih =>
    intro st
    cases e with
    | toggle b =>
      have hcmd := run_streams_eq_of_command_eq es
        ((sysStep st (SEvent.toggle b)).1) st (by simp [sysStep])
      have hih := ih st
      constructor
      · calc labelStream (sysRun st (SEvent.toggle b :: es))
            = labelStream (sysRun (sysStep st (SEvent.toggle b)).1 es) := by
              simp [sysRun, labelStream_append, labelStream, sysStep]
          _ = labelStream (sysRun st es) := hcmd.1
          _ = labelStream (sysRun st (es.filter (fun e => !isToggleEvent e))) := hih.1
          _ = labelStream (sysRun st ((SEvent.toggle b :: es).filter
                (fun e => !isToggleEvent e))) := by simp [isToggleEvent]
      · calc twistStream (sysRun st (SEvent.toggle b :: es))
            = twistStream (sysRun (sysStep st (SEvent.toggle b)).1 es) := by
              simp [sysRun, twistStream_append, twistStream, sysStep]
          _ = twistStream (sysRun st es) := hcmd.2
          _ = twistStream (sysRun st (es.filter (fun e => !isToggleEvent e))) := hih.2
          _ = twistStream (sysRun st ((SEvent.toggle b :: es).filter
                (fun e => !isToggleEvent e))) := by simp [isToggleEvent]
    | frame fr =>
      have hih := ih (sysStep st (SEvent.frame fr)).1
      refine ⟨?_, ?_⟩ <;>
        simp [sysRun, List.filter, isToggleEvent, labelStream_append,
          twistStream_append, hih.1, hih.2]
    | odom x y =>
      have hih := ih (sysStep st (SEvent.odom x y)).1
      refine ⟨?_, ?_⟩ <;>
        simp [sysRun, List.filter, isToggleEvent, labelStream_append,
          twistStream_append, hih.1, hih.2]
    | tick =>
      have hih := ih (sysStep st SEvent.tick).1
      refine ⟨?_, ?_⟩ <;>
        simp [sysRun, List.filter, isToggleEvent, labelStream_append,
          twistStream_append, hih.1, hih.2]

/-- Deleting every odom event from a run changes neither published stream. -/
theorem run_streams_erase_odom (evs : List SEvent) :
    ∀ st : SysState,
      labelStream (sysRun st evs) =
        labelStream (sysRun st (evs.filter (fun e => !isOdomEvent e))) ∧
      twistStream (sysRun st evs) =
        twistStream (sysRun st (evs.filter (fun e => !isOdomEvent e))) := by
  induction evs with
  | nil => intro st; simp
  | cons e es ih =>
    intro st
    cases e with
    | odom x y =>
      have hcmd := run_streams_eq_of_command_eq es
        ((sysStep st (SEvent.odom x y)).1) st (by simp [sysStep])
      have hih := ih st
      constructor
      · calc labelStream (sysRun st (SEvent.odom x y :: es))
            = labelStream (sysRun (sysStep st (SEvent.odom x y)).1 es) := by
              simp [sysRun, labelStream_append, labelStream, sysStep]
          _ = labelStream (sysRun st es) := hcmd.1
          _ = labelStream (sysRun st (es.filter (fun e => !isOdomEvent e))) := hih.1
          _ = labelStream (sysRun st ((SEvent.odom x y :: es).filter
                (fun e => !isOdomEvent e))) := by simp [isOdomEvent]
      · calc twistStream (sysRun st (SEvent.odom x y :: es))
            = twistStream (sysRun (sysStep st (SEvent.odom x y)).1 es) := by
              simp [sysRun, twistStream_append, twistStream, sysStep]
          _ = twistStream (sysRun st es) := hcmd.2
          _ = twistStream (sysRun st (es.filter (fun e => !isOdomEvent e))) := hih.2
          _ = twistStream (sysRun st ((SEvent.odom x y :: es).filter
                (fun e => !isOdomEvent e))) := by simp [isOdomEvent]
    | frame fr =>
      have hih := ih (sysStep st (SEvent.frame fr)).1
      refine ⟨?_, ?_⟩ <;>
        simp [sysRun, List.filter, isOdomEvent, labelStream_append,
          twistStream_append, hih.1, hih.2]
    | toggle b =>
      have hih := ih (sysStep st (SEvent.toggle b)).1
      refine ⟨?_, ?_⟩ <;>
        simp [sysRun, List.filter, isOdomEvent, labelStream_append,
          twistStream_append, hih.1, hih.2]
    | tick =>
      have hih := ih (sysStep st SEvent.tick).1
      refine ⟨?_, ?_⟩ <;>
        simp [sysRun, List.filter, isOdomEvent, labelStream_append,
          twistStream_append, hih.1, hih.2]

/-- While no successful classification event occurs, `current_command` stays
at `"Nothing"` and every tick publishes the cruise command `(0.2, 0.0)`. -/
theorem twists_cruise_of_no_ok_frame (evs : List SEvent) :
    ∀ st : SysState, st.current_command = "Nothing" →
      (∀ lab conf, SEvent.frame (FrameResult.ok lab conf) ∉ evs) →
      twistStream (sysRun st evs) =
        List.replicate (evs.countP (fun e => e == SEvent.tick)) ⟨0.2, 0.0⟩ := by
  induction evs with
  | nil => intro st _ _; simp [sysRun, twistStream]
  | cons e es ih =>
    intro st h hok
    have hok' : ∀ lab conf, SEvent.frame (FrameResult.ok lab conf) ∉ es := by
      intro lab conf hmem
      exact hok lab conf (List.mem_cons_of_mem _ hmem)
    cases e with
    | frame fr =>
      cases fr with
      | ok lab conf => exact absurd (List.mem_cons_self _ _) (hok lab conf)
      | decodeError =>
        have hrec := ih ((sysStep st (SEvent.frame FrameResult.decodeError)).1)
          (by simpa [sysStep] using h) hok'
        simpa [sysRun, sysStep, twistStream_append, twistStream,
          List.countP_cons] using hrec
      | classifyError =>
        have hrec := ih ((sysStep st (SEvent.frame FrameResult.classifyError)).1)
          (by simpa [sysStep] using h) hok'
        simpa [sysRun, sysStep, twistStream_append, twistStream,
          List.countP_cons] using hrec
    | toggle b =>
      have hrec := ih ((sysStep st (SEvent.toggle b)).1)
        (by simpa [sysStep] using h) hok'
      simpa [sysRun, sysStep, twistStream_append, twistStream,
        List.countP_cons] using hrec
    | odom x y =>
      have hrec := ih ((sysStep st (SEvent.odom x y)).1)
        (by simpa [sysStep] using h) hok'
      simpa [sysRun, sysStep, twistStream_append, twistStream,
        List.countP_cons] using hrec
    | tick =>
      have hrec := ih st h hok'
      simp only [sysRun, sysStep, twistStream_append, List.countP_cons,
        List.replicate_succ, h, motionMapping]
      simp only [twistStream] at hrec ⊢
      simp [hrec, List.replicate_succ]

/-! ### Claims -/

/-- C1: on any tick, the published command is exactly the table entry for the
label read on that tick: `"Stop"` and `"Give_Way"` give `(0.0, 0.0)`,
`"Turn_Left"` gives `(0.0, 0.5)`, `"Turn_Right"` gives `(0.0, -0.5)`,
`"Nothing"` gives `(0.2, 0.0)`, any other string gives `(0.0, 0.0)`, and the
mapping is a total function on strings. -/
theorem C1_mapping_table :
    motionMapping "Stop" = ⟨0.0, 0.0⟩ ∧
    motionMapping "Give_Way" = ⟨0.0, 0.0⟩ ∧
    motionMapping "Turn_Left" = ⟨0.0, 0.5⟩ ∧
    motionMapping "Turn_Right" = ⟨0.0, -0.5⟩ ∧
    motionMapping "Nothing" = ⟨0.2, 0.0⟩ ∧
    (∀ s : String,
      s ∉ (["Stop", "Give_Way", "Turn_Left", "Turn_Right", "Nothing"] : List String) →
      motionMapping s = ⟨0.0, 0.0⟩) ∧
    (∀ st : SysState,
      twistStream (sysRun st [SEvent.tick]) = [motionMapping st.current_command]) := by
  refine ⟨by simp [motionMapping], by simp [motionMapping], by simp [motionMapping],
    by simp [motionMapping], by simp [motionMapping], ?_, ?_⟩
  · intro s hs
    simp only [List.mem_cons, List.not_mem_nil, or_false, not_or] at hs
    obtain ⟨h1, h2, h3, h4, h5⟩ := hs
    simp [motionMapping, h1, h2, h3, h4, h5]
  · intro st
    simp [sysRun, sysStep, twistStream]

/-- C1 witness: the unknown-label branch evaluated at the concrete string
`"Pedestrian_Crossing"`. -/
theorem C1_mapping_table_witness :
    motionMapping "Pedestrian_Crossing" = ⟨0.0, 0.0⟩ :=
  C1_mapping_table.2.2.2.2.2.1 "Pedestrian_Crossing" (by decide)

/-- C2: before any label update, the command cell holds `"Nothing"`, so every
tick of a run containing no successful classification publishes `(0.2, 0.0)`;
in particular 5 ticks with no label received emit `(0.2, 0.0)` 5 times. -/
theorem C2_default_nothing :
    initState.current_command = "Nothing" ∧
    (∀ evs : List SEvent,
      (∀ lab conf, SEvent.frame (FrameResult.ok lab conf) ∉ evs) →
      twistStream (sysRun initState evs) =
        List.replicate (evs.countP (fun e => e == SEvent.tick)) ⟨0.2, 0.0⟩) ∧
    twistStream (sysRun initState (List.replicate 5 SEvent.tick)) =
      List.replicate 5 ⟨0.2, 0.0⟩ := by
  refine ⟨rfl, ?_, ?_⟩
  · intro evs hok
    exact twists_cruise_of_no_ok_frame evs initState rfl hok
  · simp [sysRun, sysStep, twistStream, initState, motionMapping, List.replicate]

/-- C2 witness: the no-label-yet branch applied to the concrete run of 5 bare
ticks. -/
theorem C2_default_nothing_witness :
    twistStream (sysRun initState
        [SEvent.tick, SEvent.tick, SEvent.tick, SEvent.tick, SEvent.tick]) =
      List.replicate 5 ⟨0.2, 0.0⟩ := by
  have h := C2_default_nothing.2.1
    [SEvent.tick, SEvent.tick, SEvent.tick, SEvent.tick, SEvent.tick]
    (by intro lab conf hmem; simp at hmem)
  simpa using h

/-- C3: a frame whose decoding or classification raises is logged and
dropped: the handler emits only the error log, publishes no label,
`current_command` is unchanged, and the label and twist streams of any
subsequent events are exactly what they would have been had the bad frame
never arrived. -/
theorem C3_error_frame_dropped :
    ∀ (st : SysState) (es : List SEvent) (fr : FrameResult),
      fr = FrameResult.decodeError ∨ fr = FrameResult.classifyError →
      (sysStep st (SEvent.frame fr)).2 = [SOut.logErr] ∧
      (sysStep st (SEvent.frame fr)).1.current_command = st.current_command ∧
      labelStream (sysRun st (SEvent.frame fr :: es)) = labelStream (sysRun st es) ∧
      twistStream (sysRun st (SEvent.frame fr :: es)) = twistStream (sysRun st es) := by
  intro st es fr hfr
  have hkey : ∀ fr', (sysStep st (SEvent.frame fr')).2 = [SOut.logErr] →
      (sysStep st (SEvent.frame fr')).1.current_command = st.current_command →
      labelStream (sysRun st (SEvent.frame fr' :: es)) = labelStream (sysRun st es) ∧
      twistStream (sysRun st (SEvent.frame fr' :: es)) = twistStream (sysRun st es) := by
    intro fr' hout hcmd
    have hrest := run_streams_eq_of_command_eq es
      ((sysStep st (SEvent.frame fr')).1) st hcmd
    constructor
    · rw [sysRun, labelStream_append, hout, hrest.1]
      simp [labelStream]
    · rw [sysRun, twistStream_append, hout, hrest.2]
      simp [twistStream]
  rcases hfr with rfl | rfl
  · exact ⟨by simp [sysStep], by simp [sysStep],
      hkey _ (by simp [sysStep]) (by simp [sysStep])⟩
  · exact ⟨by simp [sysStep], by simp [sysStep],
      hkey _ (by simp [sysStep]) (by simp [sysStep])⟩

/-- C3 witness: a decode failure followed by one tick, from the initial
state. -/
theorem C3_error_frame_dropped_witness :
    (sysStep initState (SEvent.frame FrameResult.decodeError)).2 = [SOut.logErr] ∧
    (sysStep initState (SEvent.frame FrameResult.decodeError)).1.current_command =
      initState.current_command ∧
    labelStream (sysRun initState (SEvent.frame FrameResult.decodeError :: [SEvent.tick])) =
      labelStream (sysRun initState [SEvent.tick]) ∧
    twistStream (sysRun initState (SEvent.frame FrameResult.decodeError :: [SEvent.tick])) =
      twistStream (sysRun initState [SEvent.tick]) :=
  C3_error_frame_dropped initState [SEvent.tick] FrameResult.decodeError (Or.inl rfl)

/-- C5: the tick output is a pure function of the single label copied on that
tick — two states agreeing on `current_command` produce identical tick
outputs — and a tick mutates no state, so there is no hysteresis, debounce,
or other memory between ticks. -/
theorem C5_mapping_deterministic :
    (∀ st₁ st₂ : SysState, st₁.current_command = st₂.current_command →
      (sysStep st₁ SEvent.tick).2 = (sysStep st₂ SEvent.tick).2) ∧
    (∀ st : SysState, (sysStep st SEvent.tick).1 = st) := by
  constructor
  · intro st₁ st₂ h
    simp [sysStep, h]
  · intro st
    simp [sysStep]

/-- C5 witness: two concrete states with the same label but different pose
and frame count yield the same tick output. -/
theorem C5_mapping_deterministic_witness :
    (sysStep initState SEvent.tick).2 =
      (sysStep { initState with robot_x := 3, image_count := 7 } SEvent.tick).2 :=
  C5_mapping_deterministic.1 initState
    { initState with robot_x := 3, image_count := 7 } rfl

/-- C4: the capture flag is write-only: handling a toggle message only
replaces `capture_enabled` and logs, and two runs whose event lists agree
after deleting all toggle events publish identical label and twist
streams. -/
theorem C4_toggle_independent :
    (∀ (st : SysState) (b : Bool),
      sysStep st (SEvent.toggle b) =
        ({ st with capture_enabled := b }, [SOut.logInfo])) ∧
    (∀ (st : SysState) (evs₁ evs₂ : List SEvent),
      evs₁.filter (fun e => !isToggleEvent e) =
        evs₂.filter (fun e => !isToggleEvent e) →
      labelStream (sysRun st evs₁) = labelStream (sysRun st evs₂) ∧
      twistStream (sysRun st evs₁) = twistStream (sysRun st evs₂)) := by
  refine ⟨fun st b => rfl, fun st evs₁ evs₂ h => ?_⟩
  have h₁ := run_streams_erase_toggle evs₁ st
  have h₂ := run_streams_erase_toggle evs₂ st
  rw [h] at h₁
  exact ⟨h₁.1.trans h₂.1.symm, h₁.2.trans h₂.2.symm⟩

/-- C4 witness: a run with a toggle-off and one without it produce the same
label and twist streams. -/
theorem C4_toggle_independent_witness :
    labelStream (sysRun initState
        [SEvent.toggle false, SEvent.frame (FrameResult.ok "Stop" 1), SEvent.tick]) =
      labelStream (sysRun initState
        [SEvent.frame (FrameResult.ok "Stop" 1), SEvent.tick]) ∧
    twistStream (sysRun initState
        [SEvent.toggle false, SEvent.frame (FrameResult.ok "Stop" 1), SEvent.tick]) =
      twistStream (sysRun initState
        [SEvent.frame (FrameResult.ok "Stop" 1), SEvent.tick]) :=
  C4_toggle_independent.2 initState
    [SEvent.toggle false, SEvent.frame (FrameResult.ok "Stop" 1), SEvent.tick]
    [SEvent.frame (FrameResult.ok "Stop" 1), SEvent.tick] rfl

/-- C6 counterexample: the claim that the lock-held region of the label
update contains only the value overwrite is false — in `class_callback` the
`rospy.loginfo` call sits inside the `with self.command_lock:` block, so a
logging call occurs in the critical section. -/
theorem C6_log_inside_lock_counterexample :
    Instr.logCall ∈ criticalSection class_callback_instrs ∧
    criticalSection class_callback_instrs ≠ [Instr.assignValue] := by
  decide

/-- C6 amended: the critical section of the label update consists of the
value overwrite followed by a diagnostic logging call (the code logs while
holding the lock), while the critical section of the control loop's read
consists only of the value copy, with no logging inside it. -/
theorem C6_critical_sections :
    criticalSection class_callback_instrs = [Instr.assignValue, Instr.logCall] ∧
    criticalSection motion_loop_read_instrs = [Instr.copyValue] ∧
    Instr.logCall ∉ criticalSection motion_loop_read_instrs := by
  decide

/-- C8: an odom message only overwrites the two pose fields, emits nothing,
and two runs whose event lists agree after deleting all odom events publish
identical twist streams (the pose is never read by the mapping). -/
theorem C8_pose_inert :
    (∀ (st : SysState) (x y : Rat),
      sysStep st (SEvent.odom x y) =
        ({ st with robot_x := x, robot_y := y }, [])) ∧
    (∀ (st : SysState) (evs₁ evs₂ : List SEvent),
      evs₁.filter (fun e => !isOdomEvent e) =
        evs₂.filter (fun e => !isOdomEvent e) →
      twistStream (sysRun st evs₁) = twistStream (sysRun st evs₂)) := by
  refine ⟨fun st x y => rfl, fun st evs₁ evs₂ h => ?_⟩
  have h₁ := run_streams_erase_odom evs₁ st
  have h₂ := run_streams_erase_odom evs₂ st
  rw [h] at h₁
  exact h₁.2.trans h₂.2.symm

/-- C8 witness: a run with two odom updates and one without them publish the
same twist stream. -/
theorem C8_pose_inert_witness :
    twistStream (sysRun initState
        [SEvent.odom 1 2, SEvent.tick, SEvent.odom 3 4, SEvent.tick]) =
      twistStream (sysRun initState [SEvent.tick, SEvent.tick]) :=
  C8_pose_inert.2 initState
    [SEvent.odom 1 2, SEvent.tick, SEvent.odom 3 4, SEvent.tick]
    [SEvent.tick, SEvent.tick] rfl

/-- A run containing no toggle event leaves `capture_enabled` untouched. -/
theorem capture_enabled_stable (evs : List SEvent) :
    ∀ st : SysState, (∀ b, SEvent.toggle b ∉ evs) →
      (sysRunState st evs).capture_enabled = st.capture_enabled := by
  induction evs with
  | nil => intro st _; rfl
  | cons e es ih =>
    intro st hnt
    have hnt' : ∀ b, SEvent.toggle b ∉ es := fun b hmem =>
      hnt b (List.mem_cons_of_mem _ hmem)
    cases e with
    | frame fr =>
      cases fr <;> simpa [sysRunState, sysStep] using ih _ hnt'
    | toggle b => exact absurd (List.mem_cons_self _ _) (hnt b)
    | odom x y => simpa [sysRunState, sysStep] using ih _ hnt'
    | tick => simpa [sysRunState, sysStep] using ih _ hnt'

/-- C9: `capture_enabled` starts out `true` (`self.capture_enabled = True`
in `__init__`), and a run that never receives a toggle message keeps it
`true` throughout. -/
theorem C9_capture_default_true :
    initState.capture_enabled = true ∧
    (∀ evs : List SEvent, (∀ b, SEvent.toggle b ∉ evs) →
      (sysRunState initState evs).capture_enabled = true) := by
  refine ⟨rfl, fun evs h => ?_⟩
  rw [capture_enabled_stable evs initState h]
  rfl

/-- C9 witness: a concrete toggle-free run keeps capture enabled. -/
theorem C9_capture_default_true_witness :
    (sysRunState initState
      [SEvent.odom 1 2, SEvent.frame (FrameResult.ok "Stop" 1),
        SEvent.tick]).capture_enabled = true :=
  C9_capture_default_true.2
    [SEvent.odom 1 2, SEvent.frame (FrameResult.ok "Stop" 1), SEvent.tick]
    (by intro b hb; simp at hb)

/-- Recognizer for camera-frame deliveries. -/
def isFrameEvent : SEvent → Bool
  | SEvent.frame _ => true
  | _ => false

/-- The frame counter after a run is the initial counter plus the number of
frame events, regardless of each frame's outcome. -/
theorem runState_image_count (evs : List SEvent) :
    ∀ st : SysState, (sysRunState st evs).image_count =
      st.image_count + evs.countP isFrameEvent := by
  induction evs with
  | nil => intro st; simp [sysRunState]
  | cons e es ih =>
    intro st
    cases e with
    | frame fr =>
      cases fr <;>
        (simp [sysRunState, sysStep, ih, isFrameEvent, List.countP_cons]; omega)
    | toggle b => simp [sysRunState, sysStep, ih, isFrameEvent, List.countP_cons]
    | odom x y => simp [sysRunState, sysStep, ih, isFrameEvent, List.countP_cons]
    | tick => simp [sysRunState, sysStep, ih, isFrameEvent, List.countP_cons]

/-- C10: every frame event, successful or failed, increments `image_count`
by exactly one (the `self.image_count += 1` precedes the `try` block), the
counter equals the number of received frames, and the every-10th-frame
diagnostic of a successful frame fires exactly when the incremented
received-frame counter is divisible by the debug interval. -/
theorem C10_frame_counter :
    (∀ (st : SysState) (fr : FrameResult),
      (sysStep st (SEvent.frame fr)).1.image_count = st.image_count + 1) ∧
    (∀ evs : List SEvent,
      (sysRunState initState evs).image_count = evs.countP isFrameEvent) ∧
    (∀ (st : SysState) (lab : String) (conf : Rat),
      SOut.logDebug ∈ (sysStep st (SEvent.frame (FrameResult.ok lab conf))).2 ↔
        (st.image_count + 1) % debug_interval = 0) := by
  refine ⟨fun st fr => ?_, fun evs => ?_, fun st lab conf => ?_⟩
  · cases fr <;> simp [sysStep]
  · simpa [initState] using runState_image_count evs initState
  · by_cases hc : (st.image_count + 1) % debug_interval = 0
    · simp [sysStep, hc]
    · simp [sysStep, hc]

/-- Instruction counts of a loop run that finds `is_shutdown` false `n`
times and then true: one copy, publish and sleep per iteration, and one
shutdown check per iteration plus the final check that observes shutdown. -/
theorem motionLoopTrace_counts (n : Nat) :
    (motionLoopTrace (List.replicate n false ++ [true])).count Instr.copyValue = n ∧
    (motionLoopTrace (List.replicate n false ++ [true])).count Instr.publishCall = n ∧
    (motionLoopTrace (List.replicate n false ++ [true])).count Instr.sleepCall = n ∧
    (motionLoopTrace (List.replicate n false ++ [true])).count Instr.checkShutdown
      = n + 1 := by
  induction n with
  | zero => decide
  | succ n ih =>
    obtain ⟨h1, h2, h3, h4⟩ := ih
    refine ⟨?_, ?_, ?_, ?_⟩ <;>
      simp [List.replicate_succ, motionLoopTrace, List.count_cons,
        List.count_append, tickBody, motion_loop_read_instrs, h1, h2, h3, h4]

/-- With `is_shutdown` false throughout, the loop performs one iteration per
check, publishing at iteration `i` exactly the command mapped from the value
copied on that iteration. -/
theorem motionLoopRun_no_shutdown (cmds : Nat → String) (n : Nat) :
    ∀ k, motionLoopRun cmds (List.replicate n false) k =
      (List.range n).map fun i => motionMapping (cmds (k + i)) := by
  induction n with
  | zero => intro k; simp [motionLoopRun]
  | succ n ih =>
    intro k
    rw [List.replicate_succ]
    simp only [motionLoopRun, Bool.false_eq_true, if_false]
    rw [ih (k + 1)]
    have harg : ∀ i : Nat, k + 1 + i = k + (i + 1) := by omega
    simp [List.range_succ_eq_map, List.map_map, Function.comp, harg]

/-- C7: each `motion_loop` iteration first checks the shutdown flag, then
copies the command once, publishes once, and sleeps last; a run whose `n`
shutdown checks are all false performs exactly `n` iterations (the loop
never stops without observing shutdown), publishing on iteration `i` the
mapping of the single value copied there; and a check that observes shutdown
ends the loop with no further read or publish. -/
theorem C7_tick_structure :
    (tickBody = [Instr.acquireLock, Instr.copyValue, Instr.releaseLock,
        Instr.logCall, Instr.publishCall, Instr.sleepCall] ∧
      tickBody.count Instr.copyValue = 1 ∧
      tickBody.count Instr.publishCall = 1 ∧
      tickBody.count Instr.sleepCall = 1) ∧
    (∀ n : Nat,
      (motionLoopTrace (List.replicate n false ++ [true])).count Instr.copyValue = n ∧
      (motionLoopTrace (List.replicate n false ++ [true])).count Instr.publishCall = n ∧
      (motionLoopTrace (List.replicate n false ++ [true])).count Instr.checkShutdown
        = n + 1) ∧
    (∀ (cmds : Nat → String) (n : Nat),
      motionLoopRun cmds (List.replicate n false) 0 =
        (List.range n).map fun i => motionMapping (cmds i)) ∧
    (∀ (cmds : Nat → String) (rest : List Bool) (k : Nat),
      motionLoopRun cmds (true :: rest) k = [] ∧
      motionLoopTrace (true :: rest) = [Instr.checkShutdown]) := by
  refine ⟨⟨rfl, by decide, by decide, by decide⟩, fun n => ?_, fun cmds n => ?_,
    fun cmds rest k => ⟨rfl, rfl⟩⟩
  · obtain ⟨h1, h2, _, h4⟩ := motionLoopTrace_counts n
    exact ⟨h1, h2, h4⟩
  · simpa using motionLoopRun_no_shutdown cmds n 0

end SignsMove
